import Mathlib

/-!
Verification of the Tor exit-node feed parser and lookup provider
(`msticpy/sectools/tiproviders/tor_exit_nodes.py`).

The embedding models Python strings as Lean `String`s (operating on their
`List Char` data), Python dicts as insertion-ordered association lists with
update-in-place semantics, and exceptions as `Option` (`none` = the Python
code raises).  The generator `_tor_splitter` yields pairs whose second
component is a reference to the mutable accumulator dict; `dict(...)` in
`__init__` consumes the whole generator, so the record finally stored for a
key is the contents of the accumulator at the next `ExitNode` rebind (or at the
end of the feed).  The fold state below tracks that aliasing explicitly:
`pending` holds the keys yielded so far that still reference the current
accumulator, and they are flushed with its final contents at each rebind.
-/

/-- Splits a character list at the first occurrence of `sep`, returning the
part before it and, when `sep` occurs, the part after it. -/
def breakAtChar (sep : Char) : List Char → List Char × Option (List Char)
  | [] => ([], none)
  | c :: cs =>
    if c = sep then ([], some cs)
    else
      let p := breakAtChar sep cs
      (c :: p.1, p.2)

/-- Python `line.split(" ", 2)`: at most two splits on a single space,
empty pieces kept, the remainder after the second space left intact. -/
def pySplitMax2 (line : String) : List String :=
  match breakAtChar ' ' line.data with
  | (f0, none) => [String.mk f0]
  | (f0, some r1) =>
    match breakAtChar ' ' r1 with
    | (f1, none) => [String.mk f0, String.mk f1]
    | (f1, some r2) => [String.mk f0, String.mk f1, String.mk r2]

/-- Helper for `splitLines`: accumulates the current line (reversed). -/
def splitLinesAux : List Char → List Char → List (List Char)
  | acc, [] => [acc.reverse]
  | acc, c :: cs =>
    if c = '\n' then acc.reverse :: splitLinesAux [] cs
    else splitLinesAux (c :: acc) cs

/-- Python `node_list.split("\n")`: split on every newline, keeping empty
pieces (so `""` gives `[""]` and a trailing newline gives a final `""`). -/
def splitLines (s : String) : List String :=
  (splitLinesAux [] s.data).map String.mk

/-- Python dict assignment `d[k] = v`: update in place when the key exists
(keeping its position), otherwise append at the end. -/
def dictSet {α : Type} (d : List (String × α)) (k : String) (v : α) :
    List (String × α) :=
  if d.any (fun p => p.1 = k) then
    d.map (fun p => if p.1 = k then (k, v) else p)
  else d ++ [(k, v)]

/-- Python dict read `d.get(k)`: the value stored for `k`, if any. -/
def dictGet {α : Type} (d : List (String × α)) (k : String) : Option α :=
  (d.find? (fun p => p.1 = k)).map Prod.snd

/-- One parsed record: field name to optional value (Python `None` = `none`;
a present-but-empty value is `some ""`). -/
abbrev TorRecord := List (String × Option String)

/-- Models the provider field `_nodelist`: IP address to record. -/
abbrev TorTable := List (String × TorRecord)

/-- State of the generator/`dict()` consumption loop: `cur` is the contents
of the dict object currently bound to `node_dict`; `pending` are the keys
already yielded whose pair still references that object; `done` are pairs
whose referenced dict was left behind by an `ExitNode` rebind, recorded with
its final contents, in yield order. -/
structure SplitState where
  cur : TorRecord
  pending : List String
  done : List (String × TorRecord)
deriving Repr, DecidableEq

/-- Python `fields[0]` of the split line (`""` cannot reach it because empty
lines are skipped first, and the split of a non-empty line is non-empty). -/
def lineName (line : String) : String := (pySplitMax2 line).headD ""

/-- Python `fields[1] if len(fields) > 1 else None` for the split line. -/
def lineValue (line : String) : Option String := (pySplitMax2 line).get? 1

/-- One iteration of the loop body of `Tor._tor_splitter` for one line:
skip empty lines; on `ExitNode` rebind `node_dict` to a fresh dict (which
freezes the contents seen by the pairs already yielded) before storing the
field; always store `fields[0] -> fields[1] or None`; on `ExitAddress`
yield `(fields[1], node_dict)`, where `none` models the `IndexError` raised
by `fields[1]` when the line has no second token. -/
def torLine (st : SplitState) (line : String) : Option SplitState :=
  if line = "" then some st
  else if lineName line = "ExitNode" then
    some ⟨dictSet [] "ExitNode" (lineValue line), [],
          st.done ++ st.pending.map (fun k => (k, st.cur))⟩
  else if lineName line = "ExitAddress" then
    match lineValue line with
    | none => none
    | some v =>
      some ⟨dictSet st.cur "ExitAddress" (some v), st.pending ++ [v], st.done⟩
  else
    some ⟨dictSet st.cur (lineName line) (lineValue line), st.pending, st.done⟩

/-- Runs `torLine` over a list of lines. -/
def torRun : List String → SplitState → Option SplitState
  | [], st => some st
  | l :: ls, st =>
    match torLine st l with
    | none => none
    | some st2 => torRun ls st2

/-- At the end of the feed the keys still referencing the live accumulator
resolve to its final contents. -/
def finalizeState (st : SplitState) : List (String × TorRecord) :=
  st.done ++ st.pending.map (fun k => (k, st.cur))

/-- Models `Tor._tor_splitter(node_list)`, fully consumed: the yielded key/record
pairs in yield order, each record resolved to the final contents of the dict
object the yield referenced.  `none` when the generator raises. -/
def tor_splitter (node_list : String) : Option (List (String × TorRecord)) :=
  (torRun (splitLines node_list) ⟨[], [], []⟩).map finalizeState

/-- Python `dict(pairs)`: left-to-right insertion, last write wins. -/
def buildDict (pairs : List (String × TorRecord)) : TorTable :=
  pairs.foldl (fun t p => dictSet t p.1 p.2) []

/-- Models `dict(Tor._tor_splitter(raw))` as evaluated in `Tor.__init__`. -/
def torParse (raw : String) : Option TorTable :=
  (tor_splitter raw).map buildDict

/-- Convenience projection: the value stored for field `f` of the record
keyed by `ip` in the table parsed from `raw` (`none` at any missing level
or parse failure). -/
def parsedField (raw ip f : String) : Option (Option String) :=
  match torParse raw with
  | none => none
  | some t =>
    match dictGet t ip with
    | none => none
    | some r => dictGet r f

/-- Modelled from the spec: `TISeverity` (defined in `ti_provider_base`,
outside the sources at hand) is "an ordered enumeration
(information, warning, high, ...)". -/
inductive TISeverity where
  | information
  | warning
  | high
deriving Repr, DecidableEq

/-- The dynamically-typed `details` payload of a lookup result: unset,
a plain string, or a small string-keyed mapping. -/
inductive TorDetails where
  | unset
  | text (s : String)
  | dictD (entries : List (String × Option String))
deriving Repr, DecidableEq

/-- Modelled from the spec: the `LookupResult` record of `ti_provider_base`
(outside the sources at hand), restricted to the fields the Tor provider
sets; per the spec its severity default is the neutral informational level,
and `set_severity` is modelled as plain assignment to `severity`. -/
structure LookupResult where
  ioc : String
  ioc_type : String
  provider : String
  result : Bool
  reference : String
  status : Int
  severity : TISeverity
  details : TorDetails
  raw_result : Option TorRecord
deriving Repr, DecidableEq

/-- Models `Tor._BASE_URL`. -/
def tor_BASE_URL : String := "https://check.torproject.org/exit-addresses"

/-- Models `Tor.lookup_ioc(self, ioc)` given the provider field `_nodelist`.  `none`
models the `KeyError` raised by `tor_node["ExitNode"]` or
`tor_node["LastStatus"]` when the matched record lacks that field.  The
`if tor_node:` truthiness test is false both when the key is absent and
when the stored dict is empty. -/
def lookup_ioc (nodelist : TorTable) (ioc : String) : Option LookupResult :=
  let base : LookupResult :=
    { ioc := ioc
      ioc_type := "ipv4"
      provider := "TOR"
      result := !nodelist.isEmpty
      reference := tor_BASE_URL
      status := if nodelist.isEmpty then -1 else 0
      severity := TISeverity.information
      details := TorDetails.unset
      raw_result := none }
  match dictGet nodelist ioc with
  | none => some { base with details := TorDetails.text "Not found." }
  | some tor_node =>
    if tor_node.isEmpty then
      some { base with details := TorDetails.text "Not found." }
    else
      match dictGet tor_node "ExitNode" with
      | none => none
      | some nodeId =>
        match dictGet tor_node "LastStatus" with
        | none => none
        | some lastStatus =>
          some { base with
                  severity := TISeverity.warning
                  details := TorDetails.dictD
                    [("NodeID", nodeId), ("LastStatus", lastStatus)]
                  raw_result := some tor_node }

/-- Models `Tor.parse_results(self, response)`. -/
def parse_results (_response : LookupResult) : Bool × TISeverity × Option Unit :=
  (true, TISeverity.information, none)

/-- Modelled from the spec: the outcome of `requests.get(self._BASE_URL)`
followed by `resp.content.decode()` — a decoded body, a connection-level
failure (`ConnectionError`, the class the `except` clause names), or any
other exception. -/
inductive FetchOutcome where
  | ok (body : String)
  | connError
  | otherError

/-- Models `Tor.__init__`: build `_nodelist` from the fetched feed; a
`ConnectionError` is caught and leaves the table empty; any other exception
(including the `IndexError` of the splitter itself) propagates (`none`). -/
def Tor_init : FetchOutcome → Option TorTable
  | FetchOutcome.ok body => torParse body
  | FetchOutcome.connError => some []
  | FetchOutcome.otherError => none

/-!
Segment view of the parser, used to state the amended form of the
copy-at-emit claim: a feed decomposes into segments, each starting at a
line whose first field is `ExitNode` (with a possibly empty leading segment
before the first such line); the record stored for every `ExitAddress` key
of a segment is the dict accumulated over the WHOLE segment — including
fields on lines after the `ExitAddress` line — because the emitted pairs
alias the accumulator until its next rebind.
-/

/-- Whether a line begins a new logical record (its first field is
`ExitNode`; an empty line never does, its name being `""`). -/
def isNodeStart (line : String) : Bool := lineName line == "ExitNode"

/-- Splits a line list into the leading lines before the first record start
and the segments each beginning at a record start. -/
def segSplitAux : List String → List String × List (List String)
  | [] => ([], [])
  | l :: ls =>
    let p := segSplitAux ls
    if isNodeStart l then ([], (l :: p.1) :: p.2)
    else (l :: p.1, p.2)

/-- The segments of the line list of a feed; the (possibly empty) leading
segment comes first. -/
def segmentsOf (lines : List String) : List (List String) :=
  (segSplitAux lines).1 :: (segSplitAux lines).2

/-- Accumulates the fields of the given lines into a dict, skipping empty
lines. -/
def dictOfLines (d : TorRecord) (ls : List String) : TorRecord :=
  ls.foldl (fun d l => if l = "" then d else dictSet d (lineName l) (lineValue l)) d

/-- The record a whole segment accumulates. -/
def recordOfSegment (seg : List String) : TorRecord := dictOfLines [] seg

/-- The `ExitAddress` values emitted by the given lines, in order. -/
def emitsOfLines (ls : List String) : List String :=
  ls.filterMap (fun l => if lineName l = "ExitAddress" then lineValue l else none)

/-- The key/record pairs a segment contributes: every `ExitAddress` value
of the segment, each keyed to the record of the whole segment. -/
def segPairs (seg : List String) : List (String × TorRecord) :=
  (emitsOfLines seg).map (fun k => (k, recordOfSegment seg))

/-- Whether some line is exactly `ExitAddress` with no value token (the
one shape on which the splitter raises). -/
def hasBareExit (ls : List String) : Bool := ls.any (fun l => l == "ExitAddress")

/-- The segment-view parser: fails exactly on a bare `ExitAddress` line,
and otherwise builds the table from the pairs of every segment in order. -/
def segParse (raw : String) : Option TorTable :=
  if hasBareExit (splitLines raw) then none
  else some (buildDict (((segmentsOf (splitLines raw)).map segPairs).flatten))

/-- Bridge between the fold state and the segment view: the pairs still to
be produced when the accumulator holds `cur`, the keys in `pending` alias
it, and `ls` is the remaining input. -/
def mixPairs (cur : TorRecord) (pending : List String) (ls : List String) :
    List (String × TorRecord) :=
  (pending ++ emitsOfLines (segSplitAux ls).1).map
      (fun k => (k, dictOfLines cur (segSplitAux ls).1)) ++
    (((segSplitAux ls).2).map segPairs).flatten

/-- The one-record demonstration feed of the spec. -/
def demoFeed : String := "ExitNode abc\nPublished 2020\nLastStatus up\nExitAddress 1.2.3.4"

/-- The record the demonstration feed accumulates. -/
def demoRecord : TorRecord :=
  [("ExitNode", some "abc"), ("Published", some "2020"),
   ("LastStatus", some "up"), ("ExitAddress", some "1.2.3.4")]

/-- The table the demonstration feed parses to. -/
def demoTable : TorTable := [("1.2.3.4", demoRecord)]

/-- A feed of two complete records with symbolic field values, the second
opening with a fresh `ExitNode` line (grouped so each line splits off). -/
def twoRecordFeed (a1 p1 s1 ip1 a2 p2 s2 ip2 : String) : String :=
  "ExitNode" ++ " " ++ a1 ++ "\n" ++
    ("Published" ++ " " ++ p1 ++ "\n" ++
      ("LastStatus" ++ " " ++ s1 ++ "\n" ++
        ("ExitAddress" ++ " " ++ ip1 ++ "\n" ++
          ("ExitNode" ++ " " ++ a2 ++ "\n" ++
            ("Published" ++ " " ++ p2 ++ "\n" ++
              ("LastStatus" ++ " " ++ s2 ++ "\n" ++
                ("ExitAddress" ++ " " ++ ip2)))))))

/-! Basic facts about the splitting helpers. -/

theorem breakAtChar_of_not_mem {sep : Char} {l : List Char} (h : sep ∉ l) :
    breakAtChar sep l = (l, none) := by
  induction l with
  | nil => rfl
  | cons c cs ih =>
    have hc : ¬c = sep := fun e => h (e ▸ List.mem_cons_self c cs)
    have hcs : sep ∉ cs := fun hm => h (List.mem_cons_of_mem _ hm)
    simp [breakAtChar, hc, ih hcs]

theorem breakAtChar_append {sep : Char} {a : List Char} (r : List Char)
    (h : sep ∉ a) : breakAtChar sep (a ++ sep :: r) = (a, some r) := by
  induction a with
  | nil => simp [breakAtChar]
  | cons c cs ih =>
    have hc : ¬c = sep := fun e => h (e ▸ List.mem_cons_self c cs)
    have hcs : sep ∉ cs := fun hm => h (List.mem_cons_of_mem _ hm)
    simp [breakAtChar, hc, ih hcs]

theorem breakAtChar_snd_none {sep : Char} {l : List Char}
    (h : (breakAtChar sep l).2 = none) : (breakAtChar sep l).1 = l ∧ sep ∉ l := by
  induction l with
  | nil => simp [breakAtChar]
  | cons c cs ih =>
    by_cases hc : c = sep
    · simp [breakAtChar, hc] at h
    · simp only [breakAtChar, if_neg hc] at h ⊢
      rcases ih h with ⟨h1, h2⟩
      refine ⟨by simp [h1], ?_⟩
      intro hm
      rcases List.mem_cons.mp hm with h3 | h3
      · exact hc h3.symm
      · exact h2 h3

theorem data_append_space (n v : String) :
    (n ++ " " ++ v).data = n.data ++ ' ' :: v.data := by
  simp [String.data_append]

theorem append_space_ne_empty (n v : String) : n ++ " " ++ v ≠ "" := by
  intro h
  have h2 := congrArg String.data h
  rw [data_append_space] at h2
  simp at h2

theorem pySplitMax2_of_not_mem {l : String} (h : ' ' ∉ l.data) :
    pySplitMax2 l = [l] := by
  unfold pySplitMax2
  rw [breakAtChar_of_not_mem h]

theorem pySplitMax2_two {n v : String} (hn : ' ' ∉ n.data) (hv : ' ' ∉ v.data) :
    pySplitMax2 (n ++ " " ++ v) = [n, v] := by
  unfold pySplitMax2
  rw [show (n ++ " " ++ v).data = n.data ++ ' ' :: v.data from data_append_space n v,
    breakAtChar_append _ hn]
  simp [breakAtChar_of_not_mem hv]

theorem pySplitMax2_three {n v r : String} (hn : ' ' ∉ n.data) (hv : ' ' ∉ v.data) :
    pySplitMax2 (n ++ " " ++ v ++ " " ++ r) = [n, v, r] := by
  unfold pySplitMax2
  rw [show (n ++ " " ++ v ++ " " ++ r).data = n.data ++ ' ' :: (v.data ++ ' ' :: r.data) by
      rw [data_append_space (n ++ " " ++ v) r, data_append_space n v]; simp,
    breakAtChar_append _ hn]
  simp [breakAtChar_append _ hv]

theorem lineName_of_not_mem {l : String} (h : ' ' ∉ l.data) : lineName l = l := by
  simp [lineName, pySplitMax2_of_not_mem h]

theorem lineValue_of_not_mem {l : String} (h : ' ' ∉ l.data) :
    lineValue l = none := by
  simp [lineValue, pySplitMax2_of_not_mem h]

theorem lineName_two {n v : String} (hn : ' ' ∉ n.data) (hv : ' ' ∉ v.data) :
    lineName (n ++ " " ++ v) = n := by
  simp [lineName, pySplitMax2_two hn hv]

theorem lineValue_two {n v : String} (hn : ' ' ∉ n.data) (hv : ' ' ∉ v.data) :
    lineValue (n ++ " " ++ v) = some v := by
  simp [lineValue, pySplitMax2_two hn hv]

theorem lineName_three {n v r : String} (hn : ' ' ∉ n.data) (hv : ' ' ∉ v.data) :
    lineName (n ++ " " ++ v ++ " " ++ r) = n := by
  simp [lineName, pySplitMax2_three hn hv]

theorem lineValue_three {n v r : String} (hn : ' ' ∉ n.data) (hv : ' ' ∉ v.data) :
    lineValue (n ++ " " ++ v ++ " " ++ r) = some v := by
  simp [lineValue, pySplitMax2_three hn hv]

theorem lineName_eq_self_of_value_none {l : String} (h : lineValue l = none) :
    lineName l = l := by
  unfold lineValue pySplitMax2 at h
  rcases hb : breakAtChar ' ' l.data with ⟨f0, o⟩
  cases o with
  | none =>
    have h1 := @breakAtChar_snd_none ' ' l.data (by rw [hb])
    rw [hb] at h1
    have : f0 = l.data := h1.1
    subst this
    simp [lineName, pySplitMax2, hb]
  | some r1 =>
    rw [hb] at h
    rcases hb2 : breakAtChar ' ' r1 with ⟨f1, o2⟩
    cases o2 with
    | none => simp [hb2] at h
    | some r2 => simp [hb2] at h

theorem lineValue_isSome_of_addr {l : String} (hl : l ≠ "ExitAddress")
    (hn : lineName l = "ExitAddress") : ∃ v, lineValue l = some v := by
  cases hv : lineValue l with
  | none => exact absurd (hn ▸ lineName_eq_self_of_value_none hv) (Ne.symm hl)
  | some v => exact ⟨v, rfl⟩

/-! Facts about line splitting. -/

theorem splitLinesAux_of_not_mem {xs : List Char} (h : '\n' ∉ xs) :
    ∀ acc, splitLinesAux acc xs = [acc.reverse ++ xs] := by
  induction xs with
  | nil => intro acc; simp [splitLinesAux]
  | cons c cs ih =>
    intro acc
    have hc : ¬c = '\n' := fun e => h (e ▸ List.mem_cons_self c cs)
    have hcs : '\n' ∉ cs := fun hm => h (List.mem_cons_of_mem _ hm)
    simp [splitLinesAux, hc, ih hcs]

theorem splitLinesAux_append {xs : List Char} (r : List Char) (h : '\n' ∉ xs) :
    ∀ acc, splitLinesAux acc (xs ++ '\n' :: r) =
      (acc.reverse ++ xs) :: splitLinesAux [] r := by
  induction xs with
  | nil => intro acc; simp [splitLinesAux]
  | cons c cs ih =>
    intro acc
    have hc : ¬c = '\n' := fun e => h (e ▸ List.mem_cons_self c cs)
    have hcs : '\n' ∉ cs := fun hm => h (List.mem_cons_of_mem _ hm)
    simp [splitLinesAux, hc, ih hcs]

theorem splitLines_of_not_mem {s : String} (h : '\n' ∉ s.data) :
    splitLines s = [s] := by
  simp [splitLines, splitLinesAux_of_not_mem h]

theorem data_append_newline (x rest : String) :
    (x ++ "\n" ++ rest).data = x.data ++ '\n' :: rest.data := by
  simp [String.data_append]

theorem splitLines_append {x : String} (rest : String) (h : '\n' ∉ x.data) :
    splitLines (x ++ "\n" ++ rest) = x :: splitLines rest := by
  simp [splitLines, data_append_newline, splitLinesAux_append _ h]

/-! Facts about the dict operations. -/

theorem dictGet_nil {α : Type} (k : String) :
    dictGet ([] : List (String × α)) k = none := rfl

theorem dictGet_dictSet_self {α : Type} (d : List (String × α)) (k : String)
    (v : α) : dictGet (dictSet d k v) k = some v := by
  unfold dictSet
  by_cases hd : d.any (fun p => p.1 = k)
  · rw [if_pos hd]
    induction d with
    | nil => simp at hd
    | cons p d ih =>
      by_cases hp : p.1 = k
      · simp [dictGet, List.find?_cons, hp]
      · have hd2 : d.any (fun q => q.1 = k) := by
          simpa [hp] using hd
        simp only [List.map_cons, if_neg hp]
        simp [dictGet, List.find?_cons, hp]
        simpa [dictGet] using ih hd2
  · rw [if_neg hd]
    induction d with
    | nil => simp [dictGet]
    | cons p d ih =>
      have hp : ¬p.1 = k := by
        intro e; exact hd (by simp [List.any_cons, e])
      have hd2 : ¬d.any (fun q => q.1 = k) := by
        intro e; exact hd (by simp [List.any_cons, e])
      simp only [List.cons_append]
      simp [dictGet, List.find?_cons, hp]
      simpa [dictGet] using ih hd2

/-! Step lemmas for `torLine` on well-shaped lines. -/

theorem torLine_empty (st : SplitState) : torLine st "" = some st := rfl

theorem torLine_node {v : String} (hv : ' ' ∉ v.data) (st : SplitState) :
    torLine st ("ExitNode" ++ " " ++ v) =
      some ⟨dictSet [] "ExitNode" (some v), [],
        st.done ++ st.pending.map (fun k => (k, st.cur))⟩ := by
  have h0 : ("ExitNode" ++ " " ++ v) ≠ "" := append_space_ne_empty _ _
  have hn : ' ' ∉ ("ExitNode" : String).data := by decide
  unfold torLine
  rw [if_neg h0, lineName_two hn hv, lineValue_two hn hv]
  simp

theorem torLine_addr {v : String} (hv : ' ' ∉ v.data) (st : SplitState) :
    torLine st ("ExitAddress" ++ " " ++ v) =
      some ⟨dictSet st.cur "ExitAddress" (some v), st.pending ++ [v], st.done⟩ := by
  have h0 : ("ExitAddress" ++ " " ++ v) ≠ "" := append_space_ne_empty _ _
  have hn : ' ' ∉ ("ExitAddress" : String).data := by decide
  unfold torLine
  rw [if_neg h0, lineName_two hn hv, lineValue_two hn hv]
  simp

theorem torLine_other {n v : String} (hn : ' ' ∉ n.data)
    (hv : ' ' ∉ v.data) (h1 : n ≠ "ExitNode") (h2 : n ≠ "ExitAddress")
    (st : SplitState) :
    torLine st (n ++ " " ++ v) =
      some ⟨dictSet st.cur n (some v), st.pending, st.done⟩ := by
  have h0 : (n ++ " " ++ v) ≠ "" := append_space_ne_empty _ _
  unfold torLine
  rw [if_neg h0, lineName_two hn hv, lineValue_two hn hv, if_neg h1, if_neg h2]

theorem torLine_bare_addr (st : SplitState) : torLine st "ExitAddress" = none := by
  have h0 : ("ExitAddress" : String) ≠ "" := by decide
  have hn : ' ' ∉ ("ExitAddress" : String).data := by decide
  unfold torLine
  rw [if_neg h0, lineName_of_not_mem hn, lineValue_of_not_mem hn]
  simp

/-! General branch lemmas for `torLine` (no assumption on line shape). -/

theorem torLine_of_node {l : String} (he : l ≠ "") (hn : lineName l = "ExitNode")
    (st : SplitState) :
    torLine st l = some ⟨dictSet [] "ExitNode" (lineValue l), [],
      st.done ++ st.pending.map (fun k => (k, st.cur))⟩ := by
  unfold torLine
  rw [if_neg he, hn]
  simp

theorem torLine_of_addr {l v : String} (he : l ≠ "")
    (ha : lineName l = "ExitAddress") (hv : lineValue l = some v)
    (st : SplitState) :
    torLine st l =
      some ⟨dictSet st.cur "ExitAddress" (some v), st.pending ++ [v], st.done⟩ := by
  unfold torLine
  rw [if_neg he, ha, hv]
  simp

theorem torLine_of_other {l : String} (he : l ≠ "")
    (h1 : lineName l ≠ "ExitNode") (h2 : lineName l ≠ "ExitAddress")
    (st : SplitState) :
    torLine st l =
      some ⟨dictSet st.cur (lineName l) (lineValue l), st.pending, st.done⟩ := by
  unfold torLine
  rw [if_neg he, if_neg h1, if_neg h2]

/-! Step lemmas for `mixPairs`. -/

theorem mixPairs_nil (cur : TorRecord) (pending : List String) :
    mixPairs cur pending [] = pending.map (fun k => (k, cur)) := by
  simp [mixPairs, segSplitAux, emitsOfLines, dictOfLines]

theorem mixPairs_skip (cur : TorRecord) (pending : List String)
    (ls : List String) :
    mixPairs cur pending ("" :: ls) = mixPairs cur pending ls := by
  have h1 : isNodeStart "" = false := by decide
  have h2 : lineName "" ≠ "ExitAddress" := by decide
  simp [mixPairs, segSplitAux, h1, emitsOfLines, h2, dictOfLines]

theorem mixPairs_node {l : String} (hn : lineName l = "ExitNode")
    (cur : TorRecord) (pending : List String) (ls : List String) :
    mixPairs cur pending (l :: ls) =
      pending.map (fun k => (k, cur)) ++
        mixPairs (dictSet [] "ExitNode" (lineValue l)) [] ls := by
  have hl : l ≠ "" := by
    intro e; rw [e] at hn; exact absurd hn (by decide)
  have hstart : isNodeStart l = true := by simp [isNodeStart, hn]
  have hne : ¬lineName l = "ExitAddress" := by rw [hn]; decide
  simp [mixPairs, segSplitAux, hstart, segPairs, emitsOfLines, hne,
    recordOfSegment, dictOfLines, hl, hn]

theorem mixPairs_addr {l v : String} (ha : lineName l = "ExitAddress")
    (hv : lineValue l = some v) (cur : TorRecord) (pending : List String)
    (ls : List String) :
    mixPairs cur pending (l :: ls) =
      mixPairs (dictSet cur "ExitAddress" (some v)) (pending ++ [v]) ls := by
  have hl : l ≠ "" := by
    intro e; rw [e] at ha; exact absurd ha (by decide)
  have hstart : isNodeStart l = false := by simp [isNodeStart, ha]
  simp [mixPairs, segSplitAux, hstart, emitsOfLines, ha, hv, dictOfLines, hl]

theorem mixPairs_other {l : String} (hl : l ≠ "")
    (h1 : lineName l ≠ "ExitNode") (h2 : lineName l ≠ "ExitAddress")
    (cur : TorRecord) (pending : List String) (ls : List String) :
    mixPairs cur pending (l :: ls) =
      mixPairs (dictSet cur (lineName l) (lineValue l)) pending ls := by
  have hstart : isNodeStart l = false := by simp [isNodeStart, h1]
  simp [mixPairs, segSplitAux, hstart, emitsOfLines, h2, dictOfLines, hl]

/-- Main invariant: running the splitter loop from any state and resolving
the aliases produces the already-frozen pairs followed by the pairs the
segment view predicts for the pending keys and the remaining lines. -/
theorem torRun_finalize (ls : List String) : ∀ st : SplitState,
    (∀ l ∈ ls, l ≠ "ExitAddress") →
    (torRun ls st).map finalizeState =
      some (st.done ++ mixPairs st.cur st.pending ls) := by
  induction ls with
  | nil => intro st _; simp [torRun, finalizeState, mixPairs_nil]
  | cons l ls ih =>
    intro st h
    have hl : l ≠ "ExitAddress" := h l (List.mem_cons_self _ _)
    have hls : ∀ x ∈ ls, x ≠ "ExitAddress" :=
      fun x hx => h x (List.mem_cons_of_mem _ hx)
    by_cases he : l = ""
    · subst he
      simp only [torRun, torLine_empty]
      rw [ih st hls, mixPairs_skip]
    · by_cases hn : lineName l = "ExitNode"
      · simp only [torRun, torLine_of_node he hn]
        rw [ih _ hls, mixPairs_node hn]
        simp
      · by_cases ha : lineName l = "ExitAddress"
        · obtain ⟨v, hv⟩ := lineValue_isSome_of_addr hl ha
          simp only [torRun, torLine_of_addr he ha hv]
          rw [ih _ hls, mixPairs_addr ha hv]
        · simp only [torRun, torLine_of_other he hn ha]
          rw [ih _ hls, mixPairs_other he hn ha]

/-- A bare `ExitAddress` line anywhere makes the whole run raise. -/
theorem torRun_none_of_bare : ∀ (ls : List String) (st : SplitState),
    "ExitAddress" ∈ ls → torRun ls st = none := by
  intro ls
  induction ls with
  | nil => intro st h; simp at h
  | cons l ls ih =>
    intro st h
    rcases List.mem_cons.mp h with h1 | h1
    · simp [torRun, ← h1, torLine_bare_addr]
    · cases htl : torLine st l with
      | none => simp [torRun, htl]
      | some st2 => simp [torRun, htl, ih st2 h1]

/-- With no bare `ExitAddress` line the splitter succeeds and yields
exactly the mixed pairs of the whole feed. -/
theorem tor_splitter_eq_mixPairs (raw : String)
    (h : ∀ l ∈ splitLines raw, l ≠ "ExitAddress") :
    tor_splitter raw = some (mixPairs [] [] (splitLines raw)) := by
  unfold tor_splitter
  have h2 := torRun_finalize (splitLines raw) ⟨[], [], []⟩ h
  simpa using h2

/-- From the initial state the mixed pairs are exactly the concatenation of
the pairs of every segment. -/
theorem mixPairs_init (ls : List String) :
    mixPairs [] [] ls = ((segmentsOf ls).map segPairs).flatten := by
  simp [mixPairs, segmentsOf, segPairs, recordOfSegment]

theorem newline_not_mem_space_line {n v : String} (hn : '\n' ∉ n.data)
    (hv : '\n' ∉ v.data) : '\n' ∉ (n ++ " " ++ v).data := by
  rw [data_append_space]
  intro h
  rcases List.mem_append.mp h with h1 | h1
  · exact hn h1
  · rcases List.mem_cons.mp h1 with h2 | h2
    · exact absurd h2 (by decide)
    · exact hv h2

theorem isEmpty_false_of_dictGet {α : Type} {t : List (String × α)} {k : String}
    {v : α} (h : dictGet t k = some v) : t.isEmpty = false := by
  cases t with
  | nil => simp [dictGet] at h
  | cons p t => rfl

/-- Any well-formed line stores its second token as the value of the field. -/
theorem stores_second_token {l n v : String} (he : l ≠ "")
    (hn : lineName l = n) (hv : lineValue l = some v) (st : SplitState) :
    ∃ st2, torLine st l = some st2 ∧ dictGet st2.cur n = some (some v) := by
  by_cases h1 : n = "ExitNode"
  · subst h1
    refine ⟨_, torLine_of_node he hn st, ?_⟩
    show dictGet (dictSet [] "ExitNode" (lineValue l)) "ExitNode" = some (some v)
    rw [hv]
    exact dictGet_dictSet_self _ _ _
  · by_cases h2 : n = "ExitAddress"
    · subst h2
      refine ⟨_, torLine_of_addr he hn hv st, ?_⟩
      show dictGet (dictSet st.cur "ExitAddress" (some v)) "ExitAddress" = some (some v)
      exact dictGet_dictSet_self _ _ _
    · refine ⟨_, torLine_of_other he (by rw [hn]; exact h1) (by rw [hn]; exact h2) st, ?_⟩
      show dictGet (dictSet st.cur (lineName l) (lineValue l)) n = some (some v)
      rw [hn, hv]
      exact dictGet_dictSet_self _ _ _

/-- A feed whose lines never start a yield keeps the state free of pending
and frozen pairs. -/
theorem torRun_no_addr : ∀ (ls : List String),
    (∀ l ∈ ls, lineName l ≠ "ExitAddress") →
    ∀ cur : TorRecord, ∃ cur2, torRun ls ⟨cur, [], []⟩ = some ⟨cur2, [], []⟩ := by
  intro ls
  induction ls with
  | nil => intro _ cur; exact ⟨cur, rfl⟩
  | cons l ls ih =>
    intro h cur
    have hl : lineName l ≠ "ExitAddress" := h l (List.mem_cons_self _ _)
    have hls : ∀ x ∈ ls, lineName x ≠ "ExitAddress" :=
      fun x hx => h x (List.mem_cons_of_mem _ hx)
    by_cases he : l = ""
    · subst he
      obtain ⟨cur2, h2⟩ := ih hls cur
      exact ⟨cur2, by simpa [torRun, torLine_empty] using h2⟩
    · by_cases hn : lineName l = "ExitNode"
      · obtain ⟨cur2, h2⟩ := ih hls (dictSet [] "ExitNode" (lineValue l))
        refine ⟨cur2, ?_⟩
        simpa [torRun, torLine_of_node he hn] using h2
      · obtain ⟨cur2, h2⟩ := ih hls (dictSet cur (lineName l) (lineValue l))
        refine ⟨cur2, ?_⟩
        simpa [torRun, torLine_of_other he hn hl] using h2

/-- C1 counterexample: in the feed
`"ExitNode a\nExitAddress 1.2.3.4\nLastStatus up"` the `LastStatus` line
comes after the `ExitAddress` line, yet the record stored for `1.2.3.4`
contains it — the generator yields a reference to the accumulator, not a
copy, so the claim that later fields do not appear in the emitted record is
false. -/
theorem claim_C1_counterexample :
    torParse "ExitNode a\nExitAddress 1.2.3.4\nLastStatus up" =
      some [("1.2.3.4",
        [("ExitNode", some "a"), ("ExitAddress", some "1.2.3.4"),
         ("LastStatus", some "up")])] ∧
    parsedField "ExitNode a\nExitAddress 1.2.3.4\nLastStatus up"
      "1.2.3.4" "LastStatus" = some (some "up") := by decide

/-- C1 amended: the record stored for an `ExitAddress` key is not a copy
frozen at the `ExitAddress` line; it is the accumulator as of the next
`ExitNode` line (or the end of the feed), i.e. for every feed the parse
result equals the segment view in which each `ExitAddress` key of a segment
maps to the fields of the whole segment, including those on lines after the
`ExitAddress` line. -/
theorem claim_C1 : ∀ raw : String, torParse raw = segParse raw := by
  intro raw
  by_cases hb : hasBareExit (splitLines raw) = true
  · obtain ⟨l, hmem, hle⟩ := List.any_eq_true.mp hb
    have hl : l = "ExitAddress" := by simpa using hle
    have hrun : torRun (splitLines raw) ⟨[], [], []⟩ = none :=
      torRun_none_of_bare _ _ (hl ▸ hmem)
    simp [torParse, tor_splitter, hrun, segParse, hb]
  · have h : ∀ l ∈ splitLines raw, l ≠ "ExitAddress" := by
      intro l hm e
      exact hb (List.any_eq_true.mpr ⟨l, hm, by simp [e]⟩)
    rw [torParse, tor_splitter_eq_mixPairs raw h, mixPairs_init]
    simp [segParse, hb]

/-- C2 counterexample: for the line `"LastStatus up and running"` the value
stored is `"up"`, the token between the first and second space, not the
whole remainder `"up and running"` — `split(" ", 2)` makes three tokens and
only `fields[1]` is stored. -/
theorem claim_C2_counterexample :
    parsedField "ExitNode a\nLastStatus up and running\nExitAddress 1.2.3.4"
      "1.2.3.4" "LastStatus" = some (some "up") ∧
    some (some "up") ≠ some (some ("up and running" : String)) := by decide

/-- C2 amended: for every non-empty line the parser stores, for the field
named by the text before the first space, the token between the first and
the second space (the text after a second space is discarded); when the
line has exactly one space the value is everything after it. -/
theorem claim_C2 :
    (∀ (st : SplitState) (n v : String), ' ' ∉ n.data → ' ' ∉ v.data →
      ∃ st2, torLine st (n ++ " " ++ v) = some st2 ∧
        dictGet st2.cur n = some (some v)) ∧
    (∀ (st : SplitState) (n v r : String), ' ' ∉ n.data → ' ' ∉ v.data →
      ∃ st2, torLine st (n ++ " " ++ v ++ " " ++ r) = some st2 ∧
        dictGet st2.cur n = some (some v)) := by
  constructor
  · intro st n v hn hv
    exact stores_second_token (append_space_ne_empty _ _)
      (lineName_two hn hv) (lineValue_two hn hv) st
  · intro st n v r hn hv
    exact stores_second_token (append_space_ne_empty _ _)
      (lineName_three hn hv) (lineValue_three hn hv) st

/-- C2 witness: the line `"LastStatus up and running"` stores `"up"` for
`LastStatus`. -/
theorem claim_C2_witness :
    ∃ st2, torLine ⟨[], [], []⟩ ("LastStatus" ++ " " ++ "up" ++ " " ++ "and running") =
        some st2 ∧ dictGet st2.cur "LastStatus" = some (some "up") :=
  claim_C2.2 ⟨[], [], []⟩ "LastStatus" "up" "and running" (by decide) (by decide)

/-- C3: a connection-level fetch failure is caught — construction yields an
empty table instead of raising — and every lookup against the empty table
returns a result (no exception) whose details are `"Not found."` and whose
result flag and status (`False`, `-1`) report the feed as unavailable. -/
theorem claim_C3 :
    Tor_init FetchOutcome.connError = some [] ∧
    ∀ ioc : String, lookup_ioc [] ioc =
      some { ioc := ioc, ioc_type := "ipv4", provider := "TOR",
             result := false, reference := tor_BASE_URL, status := -1,
             severity := TISeverity.information,
             details := TorDetails.text "Not found.", raw_result := none } :=
  ⟨rfl, fun _ => rfl⟩

/-- C8: `parse_results` is a constant transform: `(True, information, None)`
for every input result, whatever it contains. -/
theorem claim_C8 :
    ∀ r : LookupResult, parse_results r = (true, TISeverity.information, none) :=
  fun _ => rfl

/-- C4: for a key present in the table whose record (necessarily non-empty)
carries `ExitNode` and `LastStatus` fields, the lookup returns severity
warning, details mapping `NodeID` and `LastStatus` to those fields, and the
full record as raw result; and concretely the demonstration feed of the spec
looks up `1.2.3.4` with severity warning and details
`NodeID = "abc", LastStatus = "up"`. -/
theorem claim_C4 :
    (∀ (t : TorTable) (ioc : String) (rec : TorRecord) (nid ls : Option String),
      dictGet t ioc = some rec → rec ≠ [] →
      dictGet rec "ExitNode" = some nid → dictGet rec "LastStatus" = some ls →
      lookup_ioc t ioc =
        some { ioc := ioc, ioc_type := "ipv4", provider := "TOR",
               result := true, reference := tor_BASE_URL, status := 0,
               severity := TISeverity.warning,
               details := TorDetails.dictD [("NodeID", nid), ("LastStatus", ls)],
               raw_result := some rec }) ∧
    torParse demoFeed = some demoTable ∧
    lookup_ioc demoTable "1.2.3.4" =
      some { ioc := "1.2.3.4", ioc_type := "ipv4", provider := "TOR",
             result := true, reference := tor_BASE_URL, status := 0,
             severity := TISeverity.warning,
             details := TorDetails.dictD
               [("NodeID", some "abc"), ("LastStatus", some "up")],
             raw_result := some demoRecord } := by
  refine ⟨?_, by decide, by decide⟩
  intro t ioc rec nid ls h1 h2 h3 h4
  have ht : t.isEmpty = false := isEmpty_false_of_dictGet h1
  have hre : rec.isEmpty = false := by
    cases rec with
    | nil => exact absurd rfl h2
    | cons p r => rfl
  simp [lookup_ioc, h1, h3, h4, ht, hre]

/-- C4 witness: the general part applied to the demonstration table. -/
theorem claim_C4_witness :
    lookup_ioc demoTable "1.2.3.4" =
      some { ioc := "1.2.3.4", ioc_type := "ipv4", provider := "TOR",
             result := true, reference := tor_BASE_URL, status := 0,
             severity := TISeverity.warning,
             details := TorDetails.dictD
               [("NodeID", some "abc"), ("LastStatus", some "up")],
             raw_result := some demoRecord } :=
  claim_C4.1 demoTable "1.2.3.4" demoRecord (some "abc") (some "up")
    (by decide) (by decide) (by decide) (by decide)

/-- C5: a key absent from the table yields, without exception, a result
with details `"Not found."`, the severity still at its informational
default and no raw result; the result flag and status depend only on
whether the feed table is empty, so a miss against a loaded feed stays
distinct from feed-unavailable. -/
theorem claim_C5 :
    ∀ (t : TorTable) (ioc : String), dictGet t ioc = none →
      lookup_ioc t ioc =
        some { ioc := ioc, ioc_type := "ipv4", provider := "TOR",
               result := !t.isEmpty, reference := tor_BASE_URL,
               status := if t.isEmpty then -1 else 0,
               severity := TISeverity.information,
               details := TorDetails.text "Not found.", raw_result := none } := by
  intro t ioc h
  simp [lookup_ioc, h]

/-- C5 witness: `9.9.9.9` misses the demonstration table: details are
`"Not found."`, the severity stays informational, no raw result, while the
result flag and status still report the feed as loaded. -/
theorem claim_C5_witness :
    lookup_ioc demoTable "9.9.9.9" =
      some { ioc := "9.9.9.9", ioc_type := "ipv4", provider := "TOR",
             result := true, reference := tor_BASE_URL, status := 0,
             severity := TISeverity.information,
             details := TorDetails.text "Not found.", raw_result := none } := by
  have h := claim_C5 demoTable "9.9.9.9" (by decide)
  simpa using h

/-- C10: when the queried key is present but its record lacks `ExitNode` or
`LastStatus`, the unguarded indexing while building the details raises a
`KeyError` instead of returning a result; concretely, the feed
`"ExitAddress 1.2.3.4"` parses to a table whose only record has just the
`ExitAddress` field, and looking up `1.2.3.4` in it raises. -/
theorem claim_C10 :
    (∀ (t : TorTable) (ioc : String) (rec : TorRecord),
      dictGet t ioc = some rec → rec ≠ [] →
      dictGet rec "ExitNode" = none ∨ dictGet rec "LastStatus" = none →
      lookup_ioc t ioc = none) ∧
    torParse "ExitAddress 1.2.3.4" =
      some [("1.2.3.4", [("ExitAddress", some "1.2.3.4")])] ∧
    lookup_ioc [("1.2.3.4", [("ExitAddress", some "1.2.3.4")])] "1.2.3.4" =
      none := by
  refine ⟨?_, by decide, by decide⟩
  intro t ioc rec h1 h2 h3
  have hre : rec.isEmpty = false := by
    cases rec with
    | nil => exact absurd rfl h2
    | cons p r => rfl
  rcases h3 with h3 | h3
  · simp [lookup_ioc, h1, h3, hre]
  · cases he : dictGet rec "ExitNode" with
    | none => simp [lookup_ioc, h1, he, hre]
    | some nid => simp [lookup_ioc, h1, he, h3, hre]

/-- C10 witness: the general part applied to the single-field record. -/
theorem claim_C10_witness :
    lookup_ioc [("1.2.3.4", [("ExitAddress", some "1.2.3.4")])] "1.2.3.4" =
      none :=
  claim_C10.1 _ "1.2.3.4" [("ExitAddress", some "1.2.3.4")]
    (by decide) (by decide) (Or.inl (by decide))

/-- C6: the demonstration feed of the spec parses to exactly the expected
one-record table, and a feed with no `ExitAddress` line (no line whose
first field is `ExitAddress`) parses to the empty table. -/
theorem claim_C6 :
    torParse demoFeed = some demoTable ∧
    (∀ raw : String, (∀ l ∈ splitLines raw, lineName l ≠ "ExitAddress") →
      torParse raw = some []) := by
  refine ⟨by decide, ?_⟩
  intro raw h
  obtain ⟨cur2, h2⟩ := torRun_no_addr (splitLines raw) h []
  simp [torParse, tor_splitter, h2, finalizeState, buildDict]

/-- C6 witness: a feed with no `ExitAddress` line parses to the empty
table. -/
theorem claim_C6_witness :
    torParse "ExitNode a\nPublished 2020\nLastStatus up" = some [] :=
  claim_C6.2 "ExitNode a\nPublished 2020\nLastStatus up" (by decide)

/-- C9 counterexample: the parser is not total — on the input
`"ExitAddress"` (a field named `ExitAddress` with no value token) the
`yield fields[1]` indexing raises `IndexError`, so the parse raises instead
of returning a table. -/
theorem claim_C9_counterexample : torParse "ExitAddress" = none := by decide

/-- C9 amended: the parser is total over every feed none of whose lines is
the bare `ExitAddress` (the one raising shape); empty lines are skipped
entirely; and any other line holding only a field name stores that field
with a null value. -/
theorem claim_C9 :
    (∀ raw : String, (∀ l ∈ splitLines raw, l ≠ "ExitAddress") →
      (torParse raw).isSome) ∧
    (∀ st : SplitState, torLine st "" = some st) ∧
    (∀ (st : SplitState) (n : String), ' ' ∉ n.data → n ≠ "" →
      n ≠ "ExitAddress" →
      ∃ st2, torLine st n = some st2 ∧ dictGet st2.cur n = some none) := by
  refine ⟨?_, torLine_empty, ?_⟩
  · intro raw h
    have h2 := torRun_finalize (splitLines raw) ⟨[], [], []⟩ h
    cases htr : torRun (splitLines raw) ⟨[], [], []⟩ with
    | none => rw [htr] at h2; simp at h2
    | some st => simp [torParse, tor_splitter, htr]
  · intro st n hsp he ha
    have hname : lineName n = n := lineName_of_not_mem hsp
    have hval : lineValue n = none := lineValue_of_not_mem hsp
    by_cases h1 : n = "ExitNode"
    · subst h1
      refine ⟨_, torLine_of_node he hname st, ?_⟩
      show dictGet (dictSet [] "ExitNode" (lineValue "ExitNode")) "ExitNode" =
        some none
      rw [hval]
      exact dictGet_dictSet_self _ _ _
    · refine ⟨_, torLine_of_other he (by rw [hname]; exact h1)
        (by rw [hname]; exact ha) st, ?_⟩
      show dictGet (dictSet st.cur (lineName n) (lineValue n)) n = some none
      rw [hname, hval]
      exact dictGet_dictSet_self _ _ _

/-- C9 witness: the demonstration feed parses, and the bare line
`"Published"` stores a null value for `Published`. -/
theorem claim_C9_witness :
    (torParse demoFeed).isSome ∧
    ∃ st2, torLine ⟨[], [], []⟩ "Published" = some st2 ∧
      dictGet st2.cur "Published" = some none :=
  ⟨claim_C9.1 demoFeed (by decide),
   claim_C9.2.2 ⟨[], [], []⟩ "Published" (by decide) (by decide) (by decide)⟩

/-- C7: in a feed of two complete records separated by a fresh `ExitNode`
line, each `ExitAddress` key maps to exactly the four fields of its own
record — the `ExitNode` rebind empties the accumulator, so nothing leaks
from the first record into the second nor the other way. -/
theorem claim_C7 (a1 p1 s1 ip1 a2 p2 s2 ip2 : String)
    (ha1s : ' ' ∉ a1.data) (ha1n : '\n' ∉ a1.data)
    (hp1s : ' ' ∉ p1.data) (hp1n : '\n' ∉ p1.data)
    (hs1s : ' ' ∉ s1.data) (hs1n : '\n' ∉ s1.data)
    (hi1s : ' ' ∉ ip1.data) (hi1n : '\n' ∉ ip1.data)
    (ha2s : ' ' ∉ a2.data) (ha2n : '\n' ∉ a2.data)
    (hp2s : ' ' ∉ p2.data) (hp2n : '\n' ∉ p2.data)
    (hs2s : ' ' ∉ s2.data) (hs2n : '\n' ∉ s2.data)
    (hi2s : ' ' ∉ ip2.data) (hi2n : '\n' ∉ ip2.data)
    (hip : ip1 ≠ ip2) :
    torParse (twoRecordFeed a1 p1 s1 ip1 a2 p2 s2 ip2) =
      some [(ip1, [("ExitNode", some a1), ("Published", some p1),
                   ("LastStatus", some s1), ("ExitAddress", some ip1)]),
            (ip2, [("ExitNode", some a2), ("Published", some p2),
                   ("LastStatus", some s2), ("ExitAddress", some ip2)])] := by
  have hEN : '\n' ∉ ("ExitNode" : String).data := by decide
  have hPu : '\n' ∉ ("Published" : String).data := by decide
  have hLS : '\n' ∉ ("LastStatus" : String).data := by decide
  have hEA : '\n' ∉ ("ExitAddress" : String).data := by decide
  have sPu : ' ' ∉ ("Published" : String).data := by decide
  have sLS : ' ' ∉ ("LastStatus" : String).data := by decide
  have puNe1 : ("Published" : String) ≠ "ExitNode" := by decide
  have puNe2 : ("Published" : String) ≠ "ExitAddress" := by decide
  have lsNe1 : ("LastStatus" : String) ≠ "ExitNode" := by decide
  have lsNe2 : ("LastStatus" : String) ≠ "ExitAddress" := by decide
  unfold torParse tor_splitter twoRecordFeed
  rw [splitLines_append _ (newline_not_mem_space_line hEN ha1n),
    splitLines_append _ (newline_not_mem_space_line hPu hp1n),
    splitLines_append _ (newline_not_mem_space_line hLS hs1n),
    splitLines_append _ (newline_not_mem_space_line hEA hi1n),
    splitLines_append _ (newline_not_mem_space_line hEN ha2n),
    splitLines_append _ (newline_not_mem_space_line hPu hp2n),
    splitLines_append _ (newline_not_mem_space_line hLS hs2n),
    splitLines_of_not_mem (newline_not_mem_space_line hEA hi2n)]
  simp only [torRun, torLine_node ha1s, torLine_node ha2s,
    torLine_other sPu hp1s puNe1 puNe2, torLine_other sPu hp2s puNe1 puNe2,
    torLine_other sLS hs1s lsNe1 lsNe2, torLine_other sLS hs2s lsNe1 lsNe2,
    torLine_addr hi1s, torLine_addr hi2s,
    List.map_nil, List.map_cons, List.nil_append, List.append_nil,
    List.cons_append]
  simp [finalizeState, buildDict, dictSet, hip]

/-- C7 witness: a concrete two-record feed keeps the fields of each record on
its own key. -/
theorem claim_C7_witness :
    torParse (twoRecordFeed "n1" "2020" "up" "1.1.1.1"
        "n2" "2021" "down" "2.2.2.2") =
      some [("1.1.1.1", [("ExitNode", some "n1"), ("Published", some "2020"),
                         ("LastStatus", some "up"),
                         ("ExitAddress", some "1.1.1.1")]),
            ("2.2.2.2", [("ExitNode", some "n2"), ("Published", some "2021"),
                         ("LastStatus", some "down"),
                         ("ExitAddress", some "2.2.2.2")])] :=
  claim_C7 "n1" "2020" "up" "1.1.1.1" "n2" "2021" "down" "2.2.2.2"
    (by decide) (by decide) (by decide) (by decide) (by decide) (by decide)
    (by decide) (by decide) (by decide) (by decide) (by decide) (by decide)
    (by decide) (by decide) (by decide) (by decide) (by decide)
